import Mathlib

/-!
Verification of the off-policy evaluation orchestrator
(`obp/ope/meta.py`, class `OffPolicyEvaluation`).

The orchestrator and its methods are shallowly embedded below.  Python
`dict` payloads become Lean structures with `Option` fields for keys that
may be absent; `numpy` arrays become `List`s; floats become `ℚ`.  Each
method is translated together with an event trace (`OpeEvent`) recording,
at every call site of the translation, which collaborator operation the
source invokes there (building the input payload, fitting the regression
model, an estimator's point or interval operation), so that claims about
how often an operation runs become statements about the trace.  State is
threaded explicitly: a method returns the orchestrator state it leaves
behind, mirroring assignments (or their absence) to `self` in the source.
-/

/-- Per-action feature matrix (`action_context`), shape
`(n_actions, dim_action_context)`. -/
abbrev ActionContext := List (List ℚ)

/-- Matrix of action ids chosen by the evaluation policy, shape
`(n_rounds, len_list)`: row `i` is the ranked action list at round `i`. -/
abbrev SelectedActions := List (List Nat)

/-- Per-round, per-action, per-slot reward estimates produced by the
regression model's `predict`. -/
abbrev RewardMatrix := List (List (List ℚ))

/-- Logged bandit feedback (`BanditFeedback` dict of `obp.dataset`):
the fields of the dict that `meta.py` reads. -/
structure BanditFeedback where
  n_rounds : Nat
  n_actions : Nat
  action : List Nat
  position : List Nat
  reward : List ℚ
  pscore : List ℚ
deriving DecidableEq

/-- Modelled from the spec: `RegressionModel` (`obp/ope/regression_model.py`
is not among the sources).  Per the spec it is a polymorphic capability
`{fit(feedback, action_context), predict(feedback, action_context,
selected_actions) -> reward estimates}` whose fitted state is an explicit
flag; `fit` returns the trained model (the source mutates in place),
`predict` is an abstract deterministic function of its arguments. -/
structure RegressionModel where
  is_fitted : Bool
  predict : BanditFeedback → Option ActionContext → SelectedActions → RewardMatrix
  fitted_predict : BanditFeedback → Option ActionContext →
    BanditFeedback → Option ActionContext → SelectedActions → RewardMatrix

/-- Modelled from the spec: training the regression model on the logged
feedback and action-context.  The trained model is fitted and predicts
with the predictor learned from the training data (the source trains the
model in place; here `fit` returns the trained model). -/
def RegressionModel.fit (rm : RegressionModel) (bandit_feedback : BanditFeedback)
    (action_context : Option ActionContext) : RegressionModel :=
  { is_fitted := true
    predict := rm.fitted_predict bandit_feedback action_context
    fitted_predict := rm.fitted_predict }

/-- Modelled from the spec: `check_is_fitted` (`obp/utils.py` is not among
the sources) reports whether the given regression model is already
fitted, read off the model's explicit fitted-state flag. -/
def check_is_fitted (rm : RegressionModel) : Bool :=
  rm.is_fitted

/-- The input payload handed to every estimator
(`_create_estimator_inputs` return value): keys `reward`, `pscore`,
`action_match`, and the optional key `estimated_rewards_by_reg_model`
(absent from the dict when no regression model is configured, hence an
`Option`). -/
structure EstimatorInputs where
  reward : List ℚ
  pscore : List ℚ
  action_match : List Bool
  estimated_rewards_by_reg_model : Option RewardMatrix

/-- An estimator's interval result: the dict
`{mean, lower, upper}` returned by `estimate_interval`. -/
structure ConfidenceInterval where
  mean : ℚ
  lower : ℚ
  upper : ℚ
deriving DecidableEq

/-- Modelled from the spec: the `BaseOffPolicyEstimator` interface
(`obp/ope/estimators.py` is not among the sources): a declared name, a
point-estimate operation returning a float, and an interval-estimate
operation taking `alpha`, `n_bootstrap_samples` and an optional
`random_state` and returning `{mean, lower, upper}`.  Both operations are
abstract deterministic functions supplied by the caller. -/
structure BaseOffPolicyEstimator where
  estimator_name : String
  estimate_policy_value : EstimatorInputs → ℚ
  estimate_interval : EstimatorInputs → ℚ → Nat → Option Int → ConfidenceInterval

/-- Events recorded by the instrumented translation: one event per call,
at the translation of each call site, of a collaborator operation. -/
inductive OpeEvent where
  | buildInputs : OpeEvent
  | fitRegressionModel : OpeEvent
  | pointEstimate (name : String) : OpeEvent
  | intervalEstimate (name : String) : OpeEvent
deriving DecidableEq

/-- The constructor arguments of the `OffPolicyEvaluation` dataclass. -/
structure OffPolicyEvaluation where
  bandit_feedback : BanditFeedback
  ope_estimators : List BaseOffPolicyEstimator
  action_context : Option ActionContext := none
  regression_model : Option RegressionModel := none

/-- The orchestrator state after `__post_init__`: the dataclass fields
plus the registry `ope_estimators_` (a Python dict, embedded as an
insertion-ordered association list with unique keys). -/
structure OpeState where
  bandit_feedback : BanditFeedback
  ope_estimators : List BaseOffPolicyEstimator
  action_context : Option ActionContext
  regression_model : Option RegressionModel
  ope_estimators_ : List (String × BaseOffPolicyEstimator)

/-- Python dict assignment `d[k] = v`: if `k` is already a key, its
value is updated in place (insertion order kept); otherwise `(k, v)` is
appended. -/
def dictSet (d : List (String × BaseOffPolicyEstimator)) (k : String)
    (v : BaseOffPolicyEstimator) : List (String × BaseOffPolicyEstimator) :=
  if d.any (fun p => p.1 == k) then
    d.map (fun p => if p.1 == k then (k, v) else p)
  else
    d ++ [(k, v)]

/-- Python dict lookup `d.get(k)`: the value at the first (hence, keys
being unique, the only) entry with key `k`. -/
def lookupDict : List (String × BaseOffPolicyEstimator) → String →
    Option BaseOffPolicyEstimator
  | [], _ => none
  | p :: rest, k => if p.1 == k then some p.2 else lookupDict rest k

/-- The registry-building loop of `__post_init__`:
`for estimator in self.ope_estimators: self.ope_estimators_[estimator.estimator_name] = estimator`. -/
def buildRegistry (ests : List BaseOffPolicyEstimator) :
    List (String × BaseOffPolicyEstimator) :=
  ests.foldl (fun d e => dictSet d e.estimator_name e) []

/-- `__post_init__` (meta.py lines 89-107): if a regression model is given
and unfitted, fit it now (in the source the model is trained in place; here
the trained model replaces it in the state) and record the fit event;
a fitted model is accepted as is; then build the name-keyed registry. -/
def post_init (self : OffPolicyEvaluation) : OpeState × List OpeEvent :=
  let base : OpeState :=
    { bandit_feedback := self.bandit_feedback
      ope_estimators := self.ope_estimators
      action_context := self.action_context
      regression_model := self.regression_model
      ope_estimators_ := buildRegistry self.ope_estimators }
  match self.regression_model with
  | some rm =>
      if check_is_fitted rm then
        (base, [])
      else
        ({ base with
            regression_model := some (rm.fit self.bandit_feedback self.action_context) },
         [OpeEvent.fitRegressionModel])
  | none => (base, [])

/-- One entry of the `action_match` array (meta.py lines 112-114):
`bandit_feedback['action'][i] == selected_actions[i, position[i]]`,
with out-of-range indices read as the numpy expression would only under
the documented shape invariants (defaults are used out of range). -/
def actionMatchAt (fb : BanditFeedback) (selected_actions : SelectedActions)
    (i : Nat) : Bool :=
  fb.action.getD i 0 == (selected_actions.getD i []).getD (fb.position.getD i 0) 0

/-- `_create_estimator_inputs` (meta.py lines 109-121): the payload holds
`reward` and `pscore` copied from the feedback, `action_match` computed
over `np.arange(n_rounds)`, and, exactly when a regression model is
configured, its `predict` output.  The method assigns nothing to `self`,
so the state it returns is the state it received. -/
def create_estimator_inputs (st : OpeState) (selected_actions : SelectedActions) :
    EstimatorInputs × OpeState × List OpeEvent :=
  let inputs : EstimatorInputs :=
    { reward := st.bandit_feedback.reward
      pscore := st.bandit_feedback.pscore
      action_match :=
        (List.range st.bandit_feedback.n_rounds).map
          (fun i => actionMatchAt st.bandit_feedback selected_actions i)
      estimated_rewards_by_reg_model :=
        st.regression_model.map
          (fun rm => rm.predict st.bandit_feedback st.action_context selected_actions) }
  (inputs, st, [OpeEvent.buildInputs])

/-- `estimate_policy_values` (meta.py lines 123-142): build the payload
once, then collect each registered estimator's point estimate into a
name-keyed mapping (the registry's keys are unique, so the association
list built by appending is the Python dict). -/
def estimate_policy_values (st : OpeState) (selected_actions : SelectedActions) :
    List (String × ℚ) × List OpeEvent :=
  let built := create_estimator_inputs st selected_actions
  let inputs := built.1
  built.2.1.ope_estimators_.foldl
    (fun acc p =>
      (acc.1 ++ [(p.1, p.2.estimate_policy_value inputs)],
       acc.2 ++ [OpeEvent.pointEstimate p.1]))
    ([], built.2.2)

/-- `estimate_intervals` (meta.py lines 144-177): build the payload once,
then collect each registered estimator's interval estimate, passing
`alpha`, `n_bootstrap_samples` and `random_state` through. -/
def estimate_intervals (st : OpeState) (selected_actions : SelectedActions)
    (alpha : ℚ) (n_bootstrap_samples : Nat) (random_state : Option Int) :
    List (String × ConfidenceInterval) × List OpeEvent :=
  let built := create_estimator_inputs st selected_actions
  let inputs := built.1
  built.2.1.ope_estimators_.foldl
    (fun acc p =>
      (acc.1 ++ [(p.1, p.2.estimate_interval inputs alpha n_bootstrap_samples random_state)],
       acc.2 ++ [OpeEvent.intervalEstimate p.1]))
    ([], built.2.2)

/-- `summarize_off_policy_estimates` (meta.py lines 179-218): call
`estimate_policy_values` once and `estimate_intervals` once and reshape
into two tables.  A transposed single-column (resp. per-estimator-column)
`DataFrame` keyed by estimator name is the association list itself, in
dict insertion order. -/
def summarize_off_policy_estimates (st : OpeState)
    (selected_actions : SelectedActions) (alpha : ℚ)
    (n_bootstrap_samples : Nat) (random_state : Option Int) :
    (List (String × ℚ) × List (String × ConfidenceInterval)) × List OpeEvent :=
  let pv := estimate_policy_values st selected_actions
  let iv := estimate_intervals st selected_actions alpha n_bootstrap_samples random_state
  ((pv.1, iv.1), pv.2 ++ iv.2)

/-- Python float division, which raises `ZeroDivisionError` on a zero
denominator instead of returning a value. -/
def pyDiv (a b : ℚ) : Except String ℚ :=
  if b = 0 then Except.error "ZeroDivisionError" else Except.ok (a / b)

/-- The dispatch loop of `evaluate_performance_of_estimators`: for each
registered estimator compute its point estimate, then
`np.abs((estimated_policy_value - ground_truth_policy_value) / ground_truth_policy_value)`;
a raised `ZeroDivisionError` propagates, aborting the remaining loop (the
point estimate of the estimator that hit it was already computed). -/
def evalPerfLoop (inputs : EstimatorInputs) (ground_truth_policy_value : ℚ) :
    List (String × BaseOffPolicyEstimator) →
      Except String (List (String × ℚ)) × List OpeEvent
  | [] => (Except.ok [], [])
  | p :: rest =>
    let estimated_policy_value := p.2.estimate_policy_value inputs
    match pyDiv (estimated_policy_value - ground_truth_policy_value)
        ground_truth_policy_value with
    | Except.error e => (Except.error e, [OpeEvent.pointEstimate p.1])
    | Except.ok r =>
      let tail := evalPerfLoop inputs ground_truth_policy_value rest
      match tail.1 with
      | Except.error e => (Except.error e, OpeEvent.pointEstimate p.1 :: tail.2)
      | Except.ok l => (Except.ok ((p.1, |r|) :: l), OpeEvent.pointEstimate p.1 :: tail.2)

/-- `evaluate_performance_of_estimators` (meta.py lines 274-310): build
the payload once, then report each estimator's relative estimation error
against the ground-truth policy value. -/
def evaluate_performance_of_estimators (st : OpeState)
    (selected_actions : SelectedActions) (ground_truth_policy_value : ℚ) :
    Except String (List (String × ℚ)) × List OpeEvent :=
  let built := create_estimator_inputs st selected_actions
  let looped := evalPerfLoop built.1 ground_truth_policy_value built.2.1.ope_estimators_
  (looped.1, built.2.2 ++ looped.2)

/-! ### Basic reductions of the instrumented methods -/

lemma create_estimator_inputs_state (st : OpeState) (sa : SelectedActions) :
    (create_estimator_inputs st sa).2.1 = st := rfl

lemma create_estimator_inputs_events (st : OpeState) (sa : SelectedActions) :
    (create_estimator_inputs st sa).2.2 = [OpeEvent.buildInputs] := rfl

lemma foldl_collect_pv (inputs : EstimatorInputs)
    (reg : List (String × BaseOffPolicyEstimator))
    (acc : List (String × ℚ) × List OpeEvent) :
    reg.foldl
      (fun acc p =>
        (acc.1 ++ [(p.1, p.2.estimate_policy_value inputs)],
         acc.2 ++ [OpeEvent.pointEstimate p.1])) acc
      = (acc.1 ++ reg.map (fun p => (p.1, p.2.estimate_policy_value inputs)),
         acc.2 ++ reg.map (fun p => OpeEvent.pointEstimate p.1)) := by
  induction reg generalizing acc with
  | nil => simp
  | cons p rest ih => simp [List.foldl_cons, ih]

lemma foldl_collect_iv (inputs : EstimatorInputs) (alpha : ℚ) (nb : Nat)
    (rs : Option Int) (reg : List (String × BaseOffPolicyEstimator))
    (acc : List (String × ConfidenceInterval) × List OpeEvent) :
    reg.foldl
      (fun acc p =>
        (acc.1 ++ [(p.1, p.2.estimate_interval inputs alpha nb rs)],
         acc.2 ++ [OpeEvent.intervalEstimate p.1])) acc
      = (acc.1 ++ reg.map (fun p => (p.1, p.2.estimate_interval inputs alpha nb rs)),
         acc.2 ++ reg.map (fun p => OpeEvent.intervalEstimate p.1)) := by
  induction reg generalizing acc with
  | nil => simp
  | cons p rest ih => simp [List.foldl_cons, ih]

lemma estimate_policy_values_eq (st : OpeState) (sa : SelectedActions) :
    estimate_policy_values st sa
      = (st.ope_estimators_.map
          (fun p => (p.1, p.2.estimate_policy_value (create_estimator_inputs st sa).1)),
         OpeEvent.buildInputs ::
           st.ope_estimators_.map (fun p => OpeEvent.pointEstimate p.1)) := by
  unfold estimate_policy_values
  rw [foldl_collect_pv]
  rw [create_estimator_inputs_state, create_estimator_inputs_events]
  simp

lemma estimate_intervals_eq (st : OpeState) (sa : SelectedActions) (alpha : ℚ)
    (nb : Nat) (rs : Option Int) :
    estimate_intervals st sa alpha nb rs
      = (st.ope_estimators_.map
          (fun p => (p.1, p.2.estimate_interval (create_estimator_inputs st sa).1 alpha nb rs)),
         OpeEvent.buildInputs ::
           st.ope_estimators_.map (fun p => OpeEvent.intervalEstimate p.1)) := by
  unfold estimate_intervals
  rw [foldl_collect_iv]
  rw [create_estimator_inputs_state, create_estimator_inputs_events]
  simp

lemma evalPerfLoop_ne_zero (inputs : EstimatorInputs) (V : ℚ) (hV : V ≠ 0)
    (reg : List (String × BaseOffPolicyEstimator)) :
    evalPerfLoop inputs V reg
      = (Except.ok (reg.map
          (fun p => (p.1, |(p.2.estimate_policy_value inputs - V) / V|))),
         reg.map (fun p => OpeEvent.pointEstimate p.1)) := by
  induction reg with
  | nil => rfl
  | cons p rest ih => simp [evalPerfLoop, pyDiv, hV, ih]

lemma evalPerfLoop_zero (inputs : EstimatorInputs)
    (p : String × BaseOffPolicyEstimator)
    (rest : List (String × BaseOffPolicyEstimator)) :
    evalPerfLoop inputs 0 (p :: rest)
      = (Except.error "ZeroDivisionError", [OpeEvent.pointEstimate p.1]) := by
  simp [evalPerfLoop, pyDiv]

/-! ### Registry (Python dict) lemmas -/

lemma lookupDict_map_upd (d : List (String × BaseOffPolicyEstimator))
    (k n : String) (v : BaseOffPolicyEstimator) (hne : n ≠ k) :
    lookupDict (d.map (fun p => if p.1 == k then (k, v) else p)) n
      = lookupDict d n := by
  induction d with
  | nil => rfl
  | cons p rest ih =>
    simp only [beq_iff_eq] at ih
    by_cases hpk : p.1 = k
    · simp [lookupDict, hpk, Ne.symm hne, ih]
    · by_cases hpn : p.1 = n
      · simp [lookupDict, hpk, hpn, hne, ih]
      · simp [lookupDict, hpk, hpn, ih]

lemma lookupDict_map_upd_self (d : List (String × BaseOffPolicyEstimator))
    (k : String) (v : BaseOffPolicyEstimator)
    (h : d.any (fun p => p.1 == k) = true) :
    lookupDict (d.map (fun p => if p.1 == k then (k, v) else p)) k
      = some v := by
  induction d with
  | nil => simp at h
  | cons p rest ih =>
    simp only [beq_iff_eq] at ih
    by_cases hpk : p.1 = k
    · simp [lookupDict, hpk]
    · have h2 : rest.any (fun p => p.1 == k) = true := by
        simpa [hpk] using h
      simp [lookupDict, hpk, ih h2]

lemma lookupDict_append (d1 d2 : List (String × BaseOffPolicyEstimator))
    (n : String) :
    lookupDict (d1 ++ d2) n = (lookupDict d1 n).or (lookupDict d2 n) := by
  induction d1 with
  | nil => simp [lookupDict]
  | cons p rest ih =>
    by_cases hpn : p.1 = n
    · simp [lookupDict, hpn]
    · simp [lookupDict, hpn, ih]

lemma lookupDict_eq_none (d : List (String × BaseOffPolicyEstimator))
    (k : String) (h : ∀ p ∈ d, p.1 ≠ k) : lookupDict d k = none := by
  induction d with
  | nil => rfl
  | cons p rest ih =>
    simp [lookupDict, h p (List.mem_cons_self p rest),
      ih (fun q hq => h q (List.mem_cons_of_mem p hq))]

lemma lookupDict_dictSet (d : List (String × BaseOffPolicyEstimator))
    (k n : String) (v : BaseOffPolicyEstimator) :
    lookupDict (dictSet d k v) n = if n = k then some v else lookupDict d n := by
  unfold dictSet
  by_cases hany : d.any (fun p => p.1 == k)
  · rw [if_pos hany]
    by_cases hnk : n = k
    · subst hnk
      rw [if_pos rfl, lookupDict_map_upd_self d n v hany]
    · rw [if_neg hnk, lookupDict_map_upd d k n v hnk]
  · rw [if_neg hany, lookupDict_append]
    have hall : ∀ p ∈ d, p.1 ≠ k := by
      intro p hp hpk
      exact hany (List.any_eq_true.mpr ⟨p, hp, by simp [hpk]⟩)
    by_cases hnk : n = k
    · subst hnk
      simp [lookupDict_eq_none d n hall, lookupDict]
    · have hkn : ¬ (k = n) := fun h => hnk h.symm
      simp [lookupDict, hkn, hnk]

lemma lookupDict_foldl (ests : List BaseOffPolicyEstimator)
    (d : List (String × BaseOffPolicyEstimator)) (n : String) :
    lookupDict (ests.foldl (fun acc e => dictSet acc e.estimator_name e) d) n
      = (ests.reverse.find? (fun e => e.estimator_name == n)).or (lookupDict d n) := by
  induction ests generalizing d with
  | nil => simp
  | cons e rest ih =>
    rw [List.foldl_cons, ih, List.reverse_cons, List.find?_append,
      lookupDict_dictSet]
    cases hf : rest.reverse.find? (fun x => x.estimator_name == n) with
    | some x => simp
    | none =>
      by_cases hen : e.estimator_name = n
      · simp [List.find?, hen]
      · have hne : ¬ (n = e.estimator_name) := fun h => hen h.symm
        have hb : (e.estimator_name == n) = false := by simp [hen]
        simp [List.find?, hb, hne]

lemma lookupDict_buildRegistry (ests : List BaseOffPolicyEstimator) (n : String) :
    lookupDict (buildRegistry ests) n
      = ests.reverse.find? (fun e => e.estimator_name == n) := by
  rw [buildRegistry, lookupDict_foldl]
  simp [lookupDict]

lemma keys_dictSet (d : List (String × BaseOffPolicyEstimator)) (k : String)
    (v : BaseOffPolicyEstimator) :
    (dictSet d k v).map Prod.fst
      = if d.any (fun p => p.1 == k) then d.map Prod.fst
        else d.map Prod.fst ++ [k] := by
  unfold dictSet
  by_cases h : d.any (fun p => p.1 == k)
  · rw [if_pos h, if_pos h, List.map_map]
    exact List.map_congr_left
      (fun p _ => by by_cases hpk : p.1 = k <;> simp [hpk])
  · rw [if_neg h, if_neg h]
    simp

lemma nodup_keys_dictSet (d : List (String × BaseOffPolicyEstimator))
    (k : String) (v : BaseOffPolicyEstimator)
    (h : (d.map Prod.fst).Nodup) :
    ((dictSet d k v).map Prod.fst).Nodup := by
  rw [keys_dictSet]
  by_cases hany : d.any (fun p => p.1 == k)
  · rwa [if_pos hany]
  · rw [if_neg hany]
    have hk : k ∉ d.map Prod.fst := by
      intro hk
      rcases List.mem_map.mp hk with ⟨p, hp, hpk⟩
      exact hany (List.any_eq_true.mpr ⟨p, hp, by simp [hpk]⟩)
    simp [List.nodup_append, h, hk]

lemma nodup_keys_buildRegistry (ests : List BaseOffPolicyEstimator) :
    ((buildRegistry ests).map Prod.fst).Nodup := by
  have main : ∀ (l : List BaseOffPolicyEstimator)
      (d : List (String × BaseOffPolicyEstimator)),
      (d.map Prod.fst).Nodup →
      ((l.foldl (fun acc e => dictSet acc e.estimator_name e) d).map Prod.fst).Nodup := by
    intro l
    induction l with
    | nil => intro d hd; simpa using hd
    | cons e rest ih =>
      intro d hd
      exact ih _ (nodup_keys_dictSet d _ _ hd)
  exact main ests [] (by simp)

lemma post_init_registry (o : OffPolicyEvaluation) :
    (post_init o).1.ope_estimators_ = buildRegistry o.ope_estimators := by
  unfold post_init
  cases o.regression_model with
  | none => rfl
  | some rm => by_cases h : check_is_fitted rm <;> simp [h]

/-! ### post_init invariants -/

lemma post_init_feedback (o : OffPolicyEvaluation) :
    (post_init o).1.bandit_feedback = o.bandit_feedback := by
  unfold post_init
  cases o.regression_model with
  | none => rfl
  | some rm => by_cases h : check_is_fitted rm <;> simp [h]

lemma post_init_action_context (o : OffPolicyEvaluation) :
    (post_init o).1.action_context = o.action_context := by
  unfold post_init
  cases o.regression_model with
  | none => rfl
  | some rm => by_cases h : check_is_fitted rm <;> simp [h]

lemma post_init_rm_isSome (o : OffPolicyEvaluation) :
    (post_init o).1.regression_model.isSome = o.regression_model.isSome := by
  unfold post_init
  cases o.regression_model with
  | none => rfl
  | some rm => by_cases h : check_is_fitted rm <;> simp [h]

lemma fit_not_in_evalPerfLoop (inputs : EstimatorInputs) (V : ℚ)
    (reg : List (String × BaseOffPolicyEstimator)) :
    OpeEvent.fitRegressionModel ∉ (evalPerfLoop inputs V reg).2 := by
  by_cases hV : V = 0
  · subst hV
    cases reg with
    | nil => simp [evalPerfLoop]
    | cons p rest => simp [evalPerfLoop_zero]
  · simp [evalPerfLoop_ne_zero inputs V hV]

/-! ### Concrete instances (the spec's scenario and small estimators) -/

/-- The logged feedback of the spec's concrete scenario: three rounds,
logged actions `[1,0,2]` at positions `[0,0,0]`, rewards `[1,0,1]`,
propensities `[1/2,1/2,1/2]`. -/
def fbEx : BanditFeedback where
  n_rounds := 3
  n_actions := 3
  action := [1, 0, 2]
  position := [0, 0, 0]
  reward := [1, 0, 1]
  pscore := [1/2, 1/2, 1/2]

/-- The selected-actions matrix of the spec's concrete scenario
(`len_list = 2`). -/
def saEx : SelectedActions := [[1, 2], [0, 1], [2, 0]]

/-- An estimator with constant outputs, for evaluating the orchestrator
on concrete inputs. -/
def constEstimator (n : String) (v : ℚ) : BaseOffPolicyEstimator where
  estimator_name := n
  estimate_policy_value := fun _ => v
  estimate_interval := fun _ _ _ _ => { mean := v, lower := v, upper := v }

/-- A concrete regression model that is not yet fitted. -/
def rmEx : RegressionModel where
  is_fitted := false
  predict := fun _ _ _ => []
  fitted_predict := fun _ _ _ _ _ => [[[1]]]

/-- Concrete orchestrator arguments: the scenario feedback, two
estimators, no regression model. -/
def opeEx : OffPolicyEvaluation where
  bandit_feedback := fbEx
  ope_estimators := [constEstimator "rm" 1, constEstimator "ipw" 2]
  action_context := none
  regression_model := none

/-- The state of `opeEx` after `__post_init__`. -/
def stEx : OpeState := (post_init opeEx).1

/-- Concrete orchestrator arguments with the unfitted regression model. -/
def opeRmEx : OffPolicyEvaluation where
  bandit_feedback := fbEx
  ope_estimators := [constEstimator "rm" 1]
  action_context := none
  regression_model := some rmEx

/-! ### Claims -/

/-- C1: for every orchestrator state and selected-actions matrix, the
payload's `action_match[i]` is true iff the logged action at round `i`
equals the selected action at round `i` in the logged slot position, for
every `i < n_rounds`; and on the spec's concrete scenario (feedback
`fbEx`, selections `saEx`) the computed `action_match` is
`[true, true, true]`. -/
theorem c1_action_match_pointwise :
    (∀ (st : OpeState) (sa : SelectedActions) (i : Nat),
        i < st.bandit_feedback.n_rounds →
        ((create_estimator_inputs st sa).1.action_match.getD i false = true ↔
          st.bandit_feedback.action.getD i 0
            = (sa.getD i []).getD (st.bandit_feedback.position.getD i 0) 0))
      ∧ (create_estimator_inputs stEx saEx).1.action_match = [true, true, true] := by
  constructor
  · intro st sa i hi
    show (((List.range st.bandit_feedback.n_rounds).map
        (fun i => actionMatchAt st.bandit_feedback sa i)).getD i false = true) ↔ _
    rw [List.getD_eq_getD_get?, List.get?_eq_getElem?, List.getElem?_map,
      List.getElem?_range hi]
    simp [actionMatchAt]
  · rfl

/-- C1 witness: the pointwise characterisation applied at round 0 of the
concrete scenario. -/
theorem c1_action_match_pointwise_witness :
    (0 < stEx.bandit_feedback.n_rounds)
      ∧ ((create_estimator_inputs stEx saEx).1.action_match.getD 0 false = true ↔
          stEx.bandit_feedback.action.getD 0 0
            = (saEx.getD 0 []).getD (stEx.bandit_feedback.position.getD 0 0) 0) :=
  ⟨by decide, c1_action_match_pointwise.1 stEx saEx 0 (by decide)⟩

/-- C6: input construction is deterministic — two calls on equal
orchestrator states with equal selected-actions matrices yield payloads
equal field by field (same keys, equal values). -/
theorem c6_create_inputs_deterministic :
    ∀ (st1 st2 : OpeState) (sa1 sa2 : SelectedActions),
      st1 = st2 → sa1 = sa2 →
      (create_estimator_inputs st1 sa1).1.reward
          = (create_estimator_inputs st2 sa2).1.reward
        ∧ (create_estimator_inputs st1 sa1).1.pscore
            = (create_estimator_inputs st2 sa2).1.pscore
        ∧ (create_estimator_inputs st1 sa1).1.action_match
            = (create_estimator_inputs st2 sa2).1.action_match
        ∧ (create_estimator_inputs st1 sa1).1.estimated_rewards_by_reg_model
            = (create_estimator_inputs st2 sa2).1.estimated_rewards_by_reg_model := by
  intro st1 st2 sa1 sa2 h1 h2
  subst h1
  subst h2
  exact ⟨rfl, rfl, rfl, rfl⟩

/-- C6 witness: determinism instantiated on the concrete scenario. -/
theorem c6_create_inputs_deterministic_witness :
    (stEx = stEx ∧ saEx = saEx)
      ∧ ((create_estimator_inputs stEx saEx).1.reward
            = (create_estimator_inputs stEx saEx).1.reward
          ∧ (create_estimator_inputs stEx saEx).1.pscore
              = (create_estimator_inputs stEx saEx).1.pscore
          ∧ (create_estimator_inputs stEx saEx).1.action_match
              = (create_estimator_inputs stEx saEx).1.action_match
          ∧ (create_estimator_inputs stEx saEx).1.estimated_rewards_by_reg_model
              = (create_estimator_inputs stEx saEx).1.estimated_rewards_by_reg_model) :=
  ⟨⟨rfl, rfl⟩, c6_create_inputs_deterministic stEx stEx saEx saEx rfl rfl⟩

/-- C7: `_create_estimator_inputs` leaves the orchestrator state
unchanged — the state it hands back is the state it received, and in
particular the bandit feedback, the estimator registry, the action
context and the regression model are unchanged. -/
theorem c7_create_inputs_frame :
    ∀ (st : OpeState) (sa : SelectedActions),
      (create_estimator_inputs st sa).2.1 = st
        ∧ (create_estimator_inputs st sa).2.1.bandit_feedback = st.bandit_feedback
        ∧ (create_estimator_inputs st sa).2.1.ope_estimators_ = st.ope_estimators_
        ∧ (create_estimator_inputs st sa).2.1.action_context = st.action_context
        ∧ (create_estimator_inputs st sa).2.1.regression_model = st.regression_model :=
  fun _ _ => ⟨rfl, rfl, rfl, rfl, rfl⟩

lemma evaluate_performance_eq (st : OpeState) (sa : SelectedActions) (V : ℚ) :
    evaluate_performance_of_estimators st sa V
      = ((evalPerfLoop (create_estimator_inputs st sa).1 V st.ope_estimators_).1,
         OpeEvent.buildInputs ::
           (evalPerfLoop (create_estimator_inputs st sa).1 V st.ope_estimators_).2) := rfl

/-- C2: for a nonzero ground truth, `evaluate_performance_of_estimators`
reports for every registered estimator exactly
`abs((estimate - ground_truth) / ground_truth)`; for a zero ground truth
(and at least one estimator registered, so that the division is reached)
the call fails with `ZeroDivisionError` instead of returning a value. -/
theorem c2_relative_estimation_error :
    (∀ (st : OpeState) (sa : SelectedActions) (V : ℚ), V ≠ 0 →
        (evaluate_performance_of_estimators st sa V).1
          = Except.ok (st.ope_estimators_.map
              (fun p => (p.1,
                |(p.2.estimate_policy_value (create_estimator_inputs st sa).1 - V) / V|))))
      ∧ (∀ (st : OpeState) (sa : SelectedActions),
          st.ope_estimators_ ≠ [] →
          (evaluate_performance_of_estimators st sa 0).1
            = Except.error "ZeroDivisionError") := by
  constructor
  · intro st sa V hV
    rw [evaluate_performance_eq, evalPerfLoop_ne_zero _ _ hV]
  · intro st sa h
    rw [evaluate_performance_eq]
    cases hreg : st.ope_estimators_ with
    | nil => exact absurd hreg h
    | cons p rest => rw [evalPerfLoop_zero]

/-- C2 witness: on the concrete orchestrator, relative errors for a
ground truth of 2, and the `ZeroDivisionError` failure for 0. -/
theorem c2_relative_estimation_error_witness :
    ((2 : ℚ) ≠ 0 ∧ (evaluate_performance_of_estimators stEx saEx 2).1
        = Except.ok [("rm", 1/2), ("ipw", 0)])
      ∧ (stEx.ope_estimators_ ≠ []
         ∧ (evaluate_performance_of_estimators stEx saEx 0).1
             = Except.error "ZeroDivisionError") := by
  have h2 : (2 : ℚ) ≠ 0 := by norm_num
  have hreg : stEx.ope_estimators_
      = [("rm", constEstimator "rm" 1), ("ipw", constEstimator "ipw" 2)] := rfl
  have hne : stEx.ope_estimators_ ≠ [] := by
    rw [hreg]
    exact List.cons_ne_nil _ _
  refine ⟨⟨h2, ?_⟩, hne, c2_relative_estimation_error.2 stEx saEx hne⟩
  rw [c2_relative_estimation_error.1 stEx saEx 2 h2, hreg]
  norm_num [constEstimator]

/-- C3: at construction, the regression model is fitted exactly once when
one is supplied and reported unfitted, and never when it is already
fitted or absent; no evaluation operation (point, interval, summary,
performance comparison) ever fits it — so fitting happens at most once
per orchestrator lifetime. -/
theorem c3_fit_at_most_once :
    (∀ (o : OffPolicyEvaluation) (rm : RegressionModel),
        o.regression_model = some rm → check_is_fitted rm = false →
        (post_init o).2 = [OpeEvent.fitRegressionModel])
      ∧ (∀ (o : OffPolicyEvaluation) (rm : RegressionModel),
          o.regression_model = some rm → check_is_fitted rm = true →
          (post_init o).2 = [])
      ∧ (∀ (o : OffPolicyEvaluation), o.regression_model = none →
          (post_init o).2 = [])
      ∧ (∀ (st : OpeState) (sa : SelectedActions) (alpha : ℚ) (nb : Nat)
          (rs : Option Int) (V : ℚ),
          OpeEvent.fitRegressionModel ∉ (estimate_policy_values st sa).2
          ∧ OpeEvent.fitRegressionModel ∉ (estimate_intervals st sa alpha nb rs).2
          ∧ OpeEvent.fitRegressionModel ∉
              (summarize_off_policy_estimates st sa alpha nb rs).2
          ∧ OpeEvent.fitRegressionModel ∉
              (evaluate_performance_of_estimators st sa V).2) := by
  refine ⟨?_, ?_, ?_, ?_⟩
  · intro o rm ho hfit
    unfold post_init
    rw [ho]
    simp [hfit]
  · intro o rm ho hfit
    unfold post_init
    rw [ho]
    simp [hfit]
  · intro o ho
    unfold post_init
    rw [ho]
  · intro st sa alpha nb rs V
    refine ⟨?_, ?_, ?_, ?_⟩
    · rw [estimate_policy_values_eq]
      simp
    · rw [estimate_intervals_eq]
      simp
    · show OpeEvent.fitRegressionModel ∉
        (estimate_policy_values st sa).2 ++ (estimate_intervals st sa alpha nb rs).2
      rw [estimate_policy_values_eq, estimate_intervals_eq]
      simp
    · rw [evaluate_performance_eq]
      simp [fit_not_in_evalPerfLoop]

/-- C3 witness: constructing with the concrete unfitted model fits it
exactly once. -/
theorem c3_fit_at_most_once_witness :
    (opeRmEx.regression_model = some rmEx ∧ check_is_fitted rmEx = false)
      ∧ (post_init opeRmEx).2 = [OpeEvent.fitRegressionModel] :=
  ⟨⟨rfl, rfl⟩, c3_fit_at_most_once.1 opeRmEx rmEx rfl rfl⟩

/-- C4: construction always succeeds and builds the registry from the
estimator list; the registry resolves a name to the estimator occurring
last in the list with that name (last-registered wins), and every
estimator of the list has its name present in the registry. -/
theorem c4_last_registered_wins :
    (∀ (o : OffPolicyEvaluation),
        (post_init o).1.ope_estimators_ = buildRegistry o.ope_estimators)
      ∧ (∀ (ests : List BaseOffPolicyEstimator) (n : String),
          lookupDict (buildRegistry ests) n
            = ests.reverse.find? (fun e => e.estimator_name == n))
      ∧ (∀ (ests : List BaseOffPolicyEstimator) (e : BaseOffPolicyEstimator),
          e ∈ ests →
          ∃ v, lookupDict (buildRegistry ests) e.estimator_name = some v) := by
  refine ⟨post_init_registry, lookupDict_buildRegistry, ?_⟩
  intro ests e he
  rw [lookupDict_buildRegistry]
  have hs : (ests.reverse.find?
      (fun e2 => e2.estimator_name == e.estimator_name)).isSome := by
    rw [List.find?_isSome]
    exact ⟨e, List.mem_reverse.mpr he, by simp⟩
  exact Option.isSome_iff_exists.mp hs

/-- Two estimators declaring the same name, used in the C4 witness. -/
def estDupA : BaseOffPolicyEstimator := constEstimator "x" 1

/-- Second estimator with the duplicate name (different behaviour). -/
def estDupB : BaseOffPolicyEstimator := constEstimator "x" 2

/-- C4 witness: with two estimators both named `"x"`, the registry maps
`"x"` to the second (last-registered) estimator. -/
theorem c4_last_registered_wins_witness :
    (estDupA ∈ [estDupA, estDupB])
      ∧ lookupDict (buildRegistry [estDupA, estDupB]) "x"
          = [estDupA, estDupB].reverse.find? (fun e => e.estimator_name == "x")
      ∧ [estDupA, estDupB].reverse.find? (fun e => e.estimator_name == "x")
          = some estDupB
      ∧ ∃ v, lookupDict (buildRegistry [estDupA, estDupB])
          estDupA.estimator_name = some v :=
  ⟨List.mem_cons_self _ _,
   c4_last_registered_wins.2.1 [estDupA, estDupB] "x",
   rfl,
   c4_last_registered_wins.2.2 [estDupA, estDupB] estDupA (List.mem_cons_self _ _)⟩

/-- C5: the payload carries `estimated_rewards_by_reg_model` (holding the
resolved model's `predict` output on the given feedback, action-context
and selections) exactly when a regression model was configured at
construction, and always carries `reward` and `pscore` taken from the
logged feedback. -/
theorem c5_payload_fields :
    ∀ (o : OffPolicyEvaluation) (sa : SelectedActions),
      (create_estimator_inputs (post_init o).1 sa).1.estimated_rewards_by_reg_model
          = ((post_init o).1.regression_model).map
              (fun rm => rm.predict (post_init o).1.bandit_feedback
                (post_init o).1.action_context sa)
        ∧ ((create_estimator_inputs (post_init o).1 sa).1.estimated_rewards_by_reg_model).isSome
            = o.regression_model.isSome
        ∧ (create_estimator_inputs (post_init o).1 sa).1.reward = o.bandit_feedback.reward
        ∧ (create_estimator_inputs (post_init o).1 sa).1.pscore = o.bandit_feedback.pscore := by
  intro o sa
  refine ⟨rfl, ?_, ?_, ?_⟩
  · show (((post_init o).1.regression_model).map
        (fun rm => rm.predict (post_init o).1.bandit_feedback
          (post_init o).1.action_context sa)).isSome = _
    rw [Option.isSome_map']
    exact post_init_rm_isSome o
  · show (post_init o).1.bandit_feedback.reward = o.bandit_feedback.reward
    rw [post_init_feedback]
  · show (post_init o).1.bandit_feedback.pscore = o.bandit_feedback.pscore
    rw [post_init_feedback]

lemma pointEstimate_injective : Function.Injective OpeEvent.pointEstimate :=
  fun a b h => by simpa using h

lemma intervalEstimate_injective : Function.Injective OpeEvent.intervalEstimate :=
  fun a b h => by simpa using h

lemma count_point_trace (reg : List (String × BaseOffPolicyEstimator)) (n : String)
    (hnodup : (reg.map Prod.fst).Nodup) (hn : n ∈ reg.map Prod.fst) :
    (OpeEvent.buildInputs :: reg.map (fun p => OpeEvent.pointEstimate p.1)).count
      (OpeEvent.pointEstimate n) = 1 := by
  rw [List.count_cons_of_ne (by simp) _]
  have hmm : reg.map (fun p => OpeEvent.pointEstimate p.1)
      = (reg.map Prod.fst).map OpeEvent.pointEstimate := by
    rw [List.map_map]
    rfl
  rw [hmm, List.count_map_of_injective _ _ pointEstimate_injective,
    List.count_eq_one_of_mem hnodup hn]

lemma count_interval_trace (reg : List (String × BaseOffPolicyEstimator)) (n : String)
    (hnodup : (reg.map Prod.fst).Nodup) (hn : n ∈ reg.map Prod.fst) :
    (OpeEvent.buildInputs :: reg.map (fun p => OpeEvent.intervalEstimate p.1)).count
      (OpeEvent.intervalEstimate n) = 1 := by
  rw [List.count_cons_of_ne (by simp) _]
  have hmm : reg.map (fun p => OpeEvent.intervalEstimate p.1)
      = (reg.map Prod.fst).map OpeEvent.intervalEstimate := by
    rw [List.map_map]
    rfl
  rw [hmm, List.count_map_of_injective _ _ intervalEstimate_injective,
    List.count_eq_one_of_mem hnodup hn]

lemma count_point_in_interval_trace (reg : List (String × BaseOffPolicyEstimator))
    (n : String) :
    (OpeEvent.buildInputs :: reg.map (fun p => OpeEvent.intervalEstimate p.1)).count
      (OpeEvent.pointEstimate n) = 0 := by
  rw [List.count_eq_zero]
  simp

lemma count_interval_in_point_trace (reg : List (String × BaseOffPolicyEstimator))
    (n : String) :
    (OpeEvent.buildInputs :: reg.map (fun p => OpeEvent.pointEstimate p.1)).count
      (OpeEvent.intervalEstimate n) = 0 := by
  rw [List.count_eq_zero]
  simp

/-- C8: `estimate_policy_values` builds the payload exactly once, passes
that shared payload to every registered estimator's point operation
exactly once, and returns the mapping from each registered name to that
estimator's point estimate, keyed exactly by the registry's names. -/
theorem c8_point_dispatch :
    ∀ (o : OffPolicyEvaluation) (sa : SelectedActions),
      (estimate_policy_values (post_init o).1 sa).1
          = (post_init o).1.ope_estimators_.map
              (fun p => (p.1, p.2.estimate_policy_value
                (create_estimator_inputs (post_init o).1 sa).1))
        ∧ (estimate_policy_values (post_init o).1 sa).1.map Prod.fst
            = (post_init o).1.ope_estimators_.map Prod.fst
        ∧ (estimate_policy_values (post_init o).1 sa).2.count OpeEvent.buildInputs = 1
        ∧ ∀ n ∈ (post_init o).1.ope_estimators_.map Prod.fst,
            (estimate_policy_values (post_init o).1 sa).2.count
              (OpeEvent.pointEstimate n) = 1 := by
  intro o sa
  have hnodup : ((post_init o).1.ope_estimators_.map Prod.fst).Nodup := by
    rw [post_init_registry]
    exact nodup_keys_buildRegistry o.ope_estimators
  rw [estimate_policy_values_eq]
  refine ⟨rfl, ?_, ?_, ?_⟩
  · rw [List.map_map]
    rfl
  · rw [List.count_cons_self]
    rw [List.count_eq_zero.mpr (by simp)]
  · intro n hn
    exact count_point_trace _ n hnodup hn

/-- C8 witness: on the concrete orchestrator, the estimator named `"rm"`
is dispatched exactly once. -/
theorem c8_point_dispatch_witness :
    ("rm" ∈ (post_init opeEx).1.ope_estimators_.map Prod.fst)
      ∧ (estimate_policy_values (post_init opeEx).1 saEx).2.count
          (OpeEvent.pointEstimate "rm") = 1 := by
  have hkeys : (post_init opeEx).1.ope_estimators_.map Prod.fst = ["rm", "ipw"] := rfl
  have hm : "rm" ∈ (post_init opeEx).1.ope_estimators_.map Prod.fst := by
    rw [hkeys]
    exact List.mem_cons_self _ _
  exact ⟨hm, (c8_point_dispatch opeEx saEx).2.2.2 "rm" hm⟩

/-- C9: `summarize_off_policy_estimates` is exactly one call to
`estimate_policy_values` and one to `estimate_intervals`, reshaped: its
point table equals the point-estimate mapping (same names and values,
one row per estimator in registration order), its interval table equals
the interval mapping, and each registered estimator's point and interval
operations run exactly once in the combined trace. -/
theorem c9_summarize_derived :
    ∀ (o : OffPolicyEvaluation) (sa : SelectedActions) (alpha : ℚ)
      (nb : Nat) (rs : Option Int),
      (summarize_off_policy_estimates (post_init o).1 sa alpha nb rs).1.1
          = (estimate_policy_values (post_init o).1 sa).1
        ∧ (summarize_off_policy_estimates (post_init o).1 sa alpha nb rs).1.2
            = (estimate_intervals (post_init o).1 sa alpha nb rs).1
        ∧ (summarize_off_policy_estimates (post_init o).1 sa alpha nb rs).2
            = (estimate_policy_values (post_init o).1 sa).2
              ++ (estimate_intervals (post_init o).1 sa alpha nb rs).2
        ∧ (summarize_off_policy_estimates (post_init o).1 sa alpha nb rs).1.1.map Prod.fst
            = (post_init o).1.ope_estimators_.map Prod.fst
        ∧ ∀ n ∈ (post_init o).1.ope_estimators_.map Prod.fst,
            (summarize_off_policy_estimates (post_init o).1 sa alpha nb rs).2.count
                (OpeEvent.pointEstimate n) = 1
            ∧ (summarize_off_policy_estimates (post_init o).1 sa alpha nb rs).2.count
                (OpeEvent.intervalEstimate n) = 1 := by
  intro o sa alpha nb rs
  have hnodup : ((post_init o).1.ope_estimators_.map Prod.fst).Nodup := by
    rw [post_init_registry]
    exact nodup_keys_buildRegistry o.ope_estimators
  refine ⟨rfl, rfl, rfl, ?_, ?_⟩
  · show (estimate_policy_values (post_init o).1 sa).1.map Prod.fst = _
    rw [estimate_policy_values_eq]
    rw [List.map_map]
    rfl
  · intro n hn
    show ((estimate_policy_values (post_init o).1 sa).2
        ++ (estimate_intervals (post_init o).1 sa alpha nb rs).2).count _ = 1
      ∧ ((estimate_policy_values (post_init o).1 sa).2
        ++ (estimate_intervals (post_init o).1 sa alpha nb rs).2).count _ = 1
    rw [estimate_policy_values_eq, estimate_intervals_eq]
    constructor
    · rw [List.count_append, count_point_trace _ n hnodup hn,
        count_point_in_interval_trace]
    · rw [List.count_append, count_interval_trace _ n hnodup hn,
        count_interval_in_point_trace]

/-- C9 witness: on the concrete orchestrator, the estimator named `"ipw"`
has its point and interval operations run exactly once by the summary. -/
theorem c9_summarize_derived_witness :
    ("ipw" ∈ (post_init opeEx).1.ope_estimators_.map Prod.fst)
      ∧ (summarize_off_policy_estimates (post_init opeEx).1 saEx (1/20) 100 none).2.count
          (OpeEvent.pointEstimate "ipw") = 1
      ∧ (summarize_off_policy_estimates (post_init opeEx).1 saEx (1/20) 100 none).2.count
          (OpeEvent.intervalEstimate "ipw") = 1 := by
  have hkeys : (post_init opeEx).1.ope_estimators_.map Prod.fst = ["rm", "ipw"] := rfl
  have hm : "ipw" ∈ (post_init opeEx).1.ope_estimators_.map Prod.fst := by
    rw [hkeys]
    exact List.mem_cons_of_mem _ (List.mem_cons_self _ _)
  have h := (c9_summarize_derived opeEx saEx (1/20) 100 none).2.2.2.2 "ipw" hm
  exact ⟨hm, h.1, h.2⟩

/-- C10: with an empty estimator list, construction succeeds with an
empty registry, and the point, interval and performance operations each
return an empty mapping without invoking any estimator (their traces
hold only the payload construction), for every input. -/
theorem c10_empty_estimator_list :
    ∀ (fb : BanditFeedback) (ac : Option ActionContext)
      (rm : Option RegressionModel) (sa : SelectedActions) (alpha : ℚ)
      (nb : Nat) (rs : Option Int) (V : ℚ),
      ((post_init (OffPolicyEvaluation.mk fb [] ac rm)).1.ope_estimators_ = [])
      ∧ (estimate_policy_values (post_init (OffPolicyEvaluation.mk fb [] ac rm)).1 sa).1 = []
      ∧ (estimate_intervals (post_init (OffPolicyEvaluation.mk fb [] ac rm)).1
          sa alpha nb rs).1 = []
      ∧ (evaluate_performance_of_estimators
          (post_init (OffPolicyEvaluation.mk fb [] ac rm)).1 sa V).1 = Except.ok []
      ∧ (estimate_policy_values (post_init (OffPolicyEvaluation.mk fb [] ac rm)).1 sa).2
          = [OpeEvent.buildInputs]
      ∧ (estimate_intervals (post_init (OffPolicyEvaluation.mk fb [] ac rm)).1
          sa alpha nb rs).2 = [OpeEvent.buildInputs]
      ∧ (evaluate_performance_of_estimators
          (post_init (OffPolicyEvaluation.mk fb [] ac rm)).1 sa V).2
          = [OpeEvent.buildInputs] := by
  intro fb ac rm sa alpha nb rs V
  have hreg : (post_init (OffPolicyEvaluation.mk fb [] ac rm)).1.ope_estimators_ = [] := by
    rw [post_init_registry]
    rfl
  refine ⟨hreg, ?_, ?_, ?_, ?_, ?_, ?_⟩
  · rw [estimate_policy_values_eq, hreg]
    rfl
  · rw [estimate_intervals_eq, hreg]
    rfl
  · rw [evaluate_performance_eq, hreg]
    rfl
  · rw [estimate_policy_values_eq, hreg]
    rfl
  · rw [estimate_intervals_eq, hreg]
    rfl
  · rw [evaluate_performance_eq, hreg]
    rfl
